import Mathlib

/-!
Verification of the metric driver decomposition library.

This file gives a shallow embedding of the core of the repository
(`src/formulas.py`, `src/decomposition.py`, `src/utils.py`) and proves
or refutes the specification claims about it.

Conventions of the embedding:
* Python strings are Lean `String`s; the tokenizing regular expressions of
  `formulas.py` are replayed as explicit recursions on `List Char`.
* `re.split(r"\s*([*/])\s*", expr)` eats the whitespace around the kept
  operators; since every operand token is subsequently stripped and empty
  tokens are skipped, splitting on the bare operator characters followed by
  stripping is behaviorally identical, and that is how it is modelled here.
* Python float/dict arithmetic is modelled over `ℚ` for the formula
  evaluator (everything there is exact field arithmetic) and over `ℝ` for
  the logarithmic decomposition (which needs `Real.log`).
* Python `str.strip()` is modelled by `trimWs` (drop whitespace at both
  ends of the character list), with the ASCII whitespace set of Python
  (space, tab, CR, LF, vertical tab, form feed -- `pyWs`); non-ASCII
  unicode whitespace is outside the model.
* `float(token)` used as a "is this a numeric constant" test is modelled by
  `isPyFloatChars`, which follows the CPython float-literal grammar on
  ASCII input: optional sign, then inf/infinity/nan (case insensitive) or a
  decimal mantissa with optional exponent, with underscores allowed only
  between digits.
-/

/-- Python whitespace (`str.strip()` and regex `\s` on ASCII input): space,
tab, newline, carriage return, vertical tab and form feed. -/
def pyWs (c : Char) : Bool :=
  c.isWhitespace || c == '\x0b' || c == '\x0c'

/-- Whitespace strip at both ends of a character list; models Python `str.strip()`. -/
def trimWs (cs : List Char) : List Char :=
  ((cs.dropWhile pyWs).reverse.dropWhile pyWs).reverse

/-- Continuation of a digit run after its first digit: every further
character is a digit, or a single underscore immediately followed by a
digit. -/
def digitRest : List Char → Bool
  | [] => true
  | '_' :: c :: rest => c.isDigit && digitRest rest
  | c :: rest => c.isDigit && digitRest rest

/-- Nonempty digit sequence of the CPython float grammar,
`digit (["_"] digit)*`: it must start with a digit, and underscores may
appear only between digits (never leading, trailing or doubled). -/
def digitSeq : List Char → Bool
  | [] => false
  | c :: rest => c.isDigit && digitRest rest

/-- Split a character list at the first character satisfying `p`, dropping it. -/
def splitFirst (p : Char → Bool) : List Char → Option (List Char × List Char)
  | [] => none
  | c :: rest =>
      if p c then some ([], rest)
      else
        match splitFirst p rest with
        | some (l, r) => some (c :: l, r)
        | none => none

/-- Exponent body of a float literal: optional sign then a digit sequence. -/
def signedDigitSeq (cs : List Char) : Bool :=
  match cs with
  | '+' :: rest => digitSeq rest
  | '-' :: rest => digitSeq rest
  | _ => digitSeq cs

/-- Mantissa of a float literal: `digits`, `digits.digits?`, or `.digits`. -/
def mantissa (cs : List Char) : Bool :=
  match splitFirst (fun c => c == '.') cs with
  | some (intPart, fracPart) =>
      (!intPart.isEmpty || !fracPart.isEmpty) &&
      (intPart.isEmpty || digitSeq intPart) &&
      (fracPart.isEmpty || digitSeq fracPart)
  | none => digitSeq cs

/-- Finite float literal body: mantissa with optional `e`/`E` exponent. -/
def floatBody (cs : List Char) : Bool :=
  match splitFirst (fun c => c == 'e' || c == 'E') cs with
  | some (mant, ex) => mantissa mant && signedDigitSeq ex
  | none => mantissa cs

/-- Case-insensitive `inf`, `infinity` or `nan`. -/
def isInfNanBody (cs : List Char) : Bool :=
  let l := cs.map Char.toLower
  l == ['i', 'n', 'f'] || l == ['i', 'n', 'f', 'i', 'n', 'i', 't', 'y'] ||
    l == ['n', 'a', 'n']

/-- Model of "Python `float(token)` succeeds" on an already stripped token. -/
def isPyFloatChars (cs : List Char) : Bool :=
  let body :=
    match cs with
    | '+' :: rest => rest
    | '-' :: rest => rest
    | _ => cs
  isInfNanBody body || floatBody body

/-- One token of `re.split(r"\s*([*/])\s*", ...)`: a kept operator or an operand. -/
inductive FTok where
  | star : FTok
  | slash : FTok
  | operand : String → FTok
deriving DecidableEq

/-- Split a character list on `*` and `/` while keeping the operators as tokens;
models `re.split(r"\s*([*/])\s*", expr)` (see file header for the whitespace
convention). -/
def tokenize : List Char → List Char → List FTok
  | [], acc => [FTok.operand (String.mk acc.reverse)]
  | '*' :: rest, acc => FTok.operand (String.mk acc.reverse) :: FTok.star :: tokenize rest []
  | '/' :: rest, acc => FTok.operand (String.mk acc.reverse) :: FTok.slash :: tokenize rest []
  | c :: rest, acc => tokenize rest (c :: acc)

/-- Strip an operand token, skip it when empty or when it is a numeric
constant (`float(token)` succeeds), keep it otherwise -- the common token
filter of every branch of `parse_formula`. -/
def keepOperand (s : String) : Option String :=
  let t := trimWs s.data
  if t.isEmpty then none
  else if isPyFloatChars t then none
  else some (String.mk t)

/-- The helper `parse_slice` of `parse_formula`: walks the token list keeping a
current-operator state (which the source updates but never reads) and appends
every kept operand to the destination list. -/
def parse_slice : List FTok → Char → List String
  | [], _ => []
  | FTok.star :: ts, _ => parse_slice ts '*'
  | FTok.slash :: ts, _ => parse_slice ts '/'
  | FTok.operand s :: ts, op =>
      match keepOperand s with
      | none => parse_slice ts op
      | some t => t :: parse_slice ts op

/-- The no-parenthesis branch of `parse_formula`: same walk, but the kept
operand goes to the numerator list when the current operator is `*` and to
the denominator list when it is `/`. -/
def classifyTokens : List FTok → Char → List String × List String
  | [], _ => ([], [])
  | FTok.star :: ts, _ => classifyTokens ts '*'
  | FTok.slash :: ts, _ => classifyTokens ts '/'
  | FTok.operand s :: ts, op =>
      match keepOperand s with
      | none => classifyTokens ts op
      | some t =>
          let r := classifyTokens ts op
          if op = '*' then (t :: r.1, r.2) else (r.1, t :: r.2)

/-- Split on `*` only (the parenthesized denominator group is split with
`re.split(r"\s*[*]\s*", ...)`). -/
def splitStar : List Char → List Char → List String
  | [], acc => [String.mk acc.reverse]
  | '*' :: rest, acc => String.mk acc.reverse :: splitStar rest []
  | c :: rest, acc => splitStar rest (c :: acc)

/-- Attempt to match `(?:\s*)\(([^)]*)\)` right after a `/`: skip whitespace,
require an opening parenthesis, take the group up to the first closing
parenthesis, require that closing parenthesis. -/
def matchParen (cs : List Char) : Option (List Char × List Char) :=
  match cs.dropWhile pyWs with
  | '(' :: rest =>
      match rest.dropWhile (fun c => !(c == ')')) with
      | ')' :: tail => some (rest.takeWhile (fun c => !(c == ')')), tail)
      | _ => none
  | _ => none

/-- Leftmost match of `re.compile(r"/(?:\s*)\(([^)]*)\)").search(expr)`:
returns (text before the `/`, group contents, text after the `)`). -/
def findDivParen : List Char → List Char → Option (String × String × String)
  | [], _ => none
  | c :: rest, acc =>
      if c = '/' then
        match matchParen rest with
        | some (grp, after) => some (String.mk acc.reverse, String.mk grp, String.mk after)
        | none => findDivParen rest (c :: acc)
      else findDivParen rest (c :: acc)

/-- The operand tokens of a token list, in order (the claim-level view of a
formula slice: everything that is not an operator). -/
def operandsOf : List FTok → List String
  | [] => []
  | FTok.star :: ts => operandsOf ts
  | FTok.slash :: ts => operandsOf ts
  | FTok.operand s :: ts => s :: operandsOf ts

/-- Claim-level view of the operator-context walk: each kept operand paired
with the operator context (`*` or `/`) it was seen under. -/
def tagTokens : List FTok → Char → List (Char × String)
  | [], _ => []
  | FTok.star :: ts, _ => tagTokens ts '*'
  | FTok.slash :: ts, _ => tagTokens ts '/'
  | FTok.operand s :: ts, op =>
      match keepOperand s with
      | none => tagTokens ts op
      | some t => (op, t) :: tagTokens ts op

/-- `parse_formula` of `src/formulas.py`: convert a formula expression into
(numerators, denominators), dropping constant numbers, with special handling
of a parenthesized denominator group after a division. -/
def parse_formula (expr : String) : List String × List String :=
  match findDivParen expr.data [] with
  | some (pre, grp, rest) =>
      let numerators := parse_slice (tokenize pre.data []) '*'
      let denominators := (splitStar grp.data []).filterMap keepOperand
      if (trimWs rest.data).isEmpty then (numerators, denominators)
      else (numerators ++ parse_slice (tokenize rest.data []) '*', denominators)
  | none => classifyTokens (tokenize expr.data []) '*'

/-! ## Decomposition engine (`src/decomposition.py`)

`multiplicative_contribution` is modelled over `ℝ` (`np.log` becomes
`Real.log`).  The Python function reads `t0[d]` / `t1[d]` from dictionaries
whose keys are assumed present (its documented precondition); the mappings
are therefore modelled as total valuations `String → ℝ`.  Note the source
performs no validity check whatsoever: it has no error channel, so the
embedding is a total function returning the driver rows and outcome dict. -/

/-- One row of the `drivers_df` DataFrame built by `multiplicative_contribution`. -/
structure DriverRow where
  metric : String
  time0_value : ℝ
  time1_value : ℝ
  growth_factor : ℝ
  pct_change : ℝ
  log_driver : ℝ
  log_share : ℝ
  percentage_points_contribution : ℝ
  absolute_contribution : ℝ
  direction_label : String

/-- The `outcome_info` dictionary returned by `multiplicative_contribution`. -/
structure OutcomeInfo where
  metric_name : String
  time0_value : ℝ
  time1_value : ℝ
  absolute_change : ℝ
  percentage_points_change : ℝ
  sum_absolute_contributions : ℝ
  sum_ppt_contributions : ℝ

/-- Growth factor `g[d] = t1[d] / t0[d]`. -/
noncomputable def growth_factor (t0 t1 : String → ℝ) (d : String) : ℝ := t1 d / t0 d

/-- Signed log contribution: `+log` of the growth factor for a numerator
driver, `-log` for any other (denominator) driver, as in the
`df.apply(lambda r: ...)` of the source. -/
noncomputable def log_driver (numerators : List String) (t0 t1 : String → ℝ) (d : String) : ℝ :=
  if d ∈ numerators then Real.log (growth_factor t0 t1 d)
  else -Real.log (growth_factor t0 t1 d)

/-- `total_log = df["log_driver"].sum()` over the rows, which are the drivers
`numerators + denominators` in order. -/
noncomputable def total_log (numerators denominators : List String) (t0 t1 : String → ℝ) : ℝ :=
  ((numerators ++ denominators).map (log_driver numerators t0 t1)).sum

/-- `multiplicative_contribution` of `src/decomposition.py`: builds the driver
rows (growth factor, pct change, signed log, normalized log share, ppt and
absolute contributions, direction label) and the outcome info dictionary.
Exactly as in the source, `log_share` is an unguarded division by
`total_log` and no precondition on the growth factors is checked. -/
noncomputable def multiplicative_contribution (metric_name : String) (t0 t1 : String → ℝ)
    (numerators denominators : List String) : List DriverRow × OutcomeInfo :=
  let drivers := numerators ++ denominators
  let T := total_log numerators denominators t0 t1
  let metric_f := t1 metric_name / t0 metric_name
  let metric_pct_change := (metric_f - 1) * 100
  let metric_abs_change := t1 metric_name - t0 metric_name
  let row := fun d =>
    let ls := log_driver numerators t0 t1 d / T
    { metric := d
      time0_value := t0 d
      time1_value := t1 d
      growth_factor := growth_factor t0 t1 d
      pct_change := (t1 d - t0 d) / t0 d
      log_driver := log_driver numerators t0 t1 d
      log_share := ls
      percentage_points_contribution := ls * metric_pct_change
      absolute_contribution := ls * metric_abs_change
      direction_label := if 0 ≤ ls * metric_abs_change then "positive" else "negative" : DriverRow }
  let rows := drivers.map row
  (rows,
    { metric_name := metric_name
      time0_value := t0 metric_name
      time1_value := t1 metric_name
      absolute_change := metric_abs_change
      percentage_points_change := metric_pct_change
      sum_absolute_contributions := (rows.map DriverRow.absolute_contribution).sum
      sum_ppt_contributions := (rows.map DriverRow.percentage_points_contribution).sum })

/-! ## Formula evaluator (`evaluate_formula` in `src/formulas.py`)

Exact field arithmetic, modelled over `ℚ`; the `values` dictionary is an
association list and absence of a key is observable, which is what the
error branches are about. -/

/-- The two error classes `evaluate_formula` raises as `ValueError`s:
`"Missing driver value: {name}"` and
`"Division by zero: denominator product is zero"`. -/
inductive EvalError where
  | missingDriver : String → EvalError
  | divisionByZero : EvalError
deriving DecidableEq

/-- One of the two product for-loops of `evaluate_formula`: multiply the
values of the listed drivers into the accumulator, raising `missingDriver`
at the first driver absent from `values`. -/
def product_loop : List String → List (String × ℚ) → ℚ → Except EvalError ℚ
  | [], _, acc => Except.ok acc
  | n :: ns, values, acc =>
      match values.lookup n with
      | some v => product_loop ns values (acc * v)
      | none => Except.error (EvalError.missingDriver n)

/-- `evaluate_formula` of `src/formulas.py`: resolve the formula through
`formulas_dict` when it is a known metric name (Python `None` is modelled as
the empty list, matching its falsiness), parse it, compute the numerator and
denominator products with missing-driver checks, then fail on a zero
denominator product and otherwise return the quotient. -/
def evaluate_formula (formula : String) (values : List (String × ℚ))
    (formulas_dict : List (String × String)) : Except EvalError ℚ :=
  let formula_expr :=
    if formulas_dict ≠ [] ∧ (formulas_dict.lookup formula).isSome then
      (formulas_dict.lookup formula).getD formula
    else formula
  let nd := parse_formula formula_expr
  match product_loop nd.1 values 1 with
  | Except.error e => Except.error e
  | Except.ok numerator_product =>
      match product_loop nd.2 values 1 with
      | Except.error e => Except.error e
      | Except.ok denominator_product =>
          if denominator_product = 0 then Except.error EvalError.divisionByZero
          else Except.ok (numerator_product / denominator_product)

/-- Modelled from the spec: the explicit-list evaluator
`evaluate(values, numerators, denominators, multiplier=1)` of §4.2, which
`app.py` calls (`evaluate_formula(metric_name, t0, numerators=...,
denominators=..., multiplier=...)`) but which is absent from
`src/formulas.py` (whose `evaluate_formula` takes a formula string and has
no multiplier).  Products of the listed driver values (empty product `1`),
`missingDriver` on an absent name, `divisionByZero` on a zero denominator
product, result `(numerator_product / denominator_product) * multiplier`. -/
def evaluate (values : List (String × ℚ)) (numerators denominators : List String)
    (multiplier : ℚ) : Except EvalError ℚ :=
  match product_loop numerators values 1 with
  | Except.error e => Except.error e
  | Except.ok np =>
      match product_loop denominators values 1 with
      | Except.error e => Except.error e
      | Except.ok dp =>
          if dp = 0 then Except.error EvalError.divisionByZero
          else Except.ok (np / dp * multiplier)

/-- Modelled from the spec: the default value `multiplier = 1` of `evaluate`. -/
def evaluate_with_default_multiplier (values : List (String × ℚ))
    (numerators denominators : List String) : Except EvalError ℚ :=
  evaluate values numerators denominators 1

/-! ## Reconciliation validator (`validate_decomposition` in `src/utils.py`) -/

/-- Two-decimal rendering used in the failure message; models the `:.2f`
format as rounding to hundredths. -/
noncomputable def fmt2 (x : ℝ) : String := toString (⌊x * 100 + 1 / 2⌋)

/-- The failure message of `validate_decomposition`, which interpolates the
metric name and both differences. -/
noncomputable def mismatch_message (metric_name : String) (abs_diff ppt_diff : ℝ) : String :=
  "Sum of driver contributions does not match total change in " ++ metric_name ++
    ". Absolute difference: $" ++ fmt2 abs_diff ++ ", PPT difference: " ++
    fmt2 ppt_diff ++ " ppts."

/-- `validate_decomposition` of `src/utils.py`.  The `drivers_df` argument is
accepted (any type) and never read, exactly as in the source, which only
consults `outcome_info`.  `rounding_tolerance = None` (modelled as `none`)
auto-computes `max(|absolute_change| * 0.001, 0.01)`.  Pure and total: it
signals failure only through the returned pair. -/
noncomputable def validate_decomposition {α : Type} (drivers_df : α) (outcome_info : OutcomeInfo)
    (rounding_tolerance : Option ℝ) : Bool × String :=
  let tol := rounding_tolerance.getD (max (|outcome_info.absolute_change| * 0.001) 0.01)
  let abs_diff := |outcome_info.sum_absolute_contributions - outcome_info.absolute_change|
  let ppt_diff := |outcome_info.sum_ppt_contributions - outcome_info.percentage_points_change|
  if ¬(abs_diff < tol ∧ ppt_diff < 0.01) then
    (false, mismatch_message outcome_info.metric_name abs_diff ppt_diff)
  else (true, "")

/-! ## String-formula entry point (`log_decompose` in `src/decomposition.py`) -/

/-- The `ValueError` raised by `log_decompose` when the metric cannot be
identified uniquely; carries the candidate set the message interpolates. -/
inductive DecompError where
  | couldNotIdentifyMetric : List String → DecompError
deriving DecidableEq

/-- `set(t0.keys()) - set(drivers)` of `log_decompose`: the distinct keys of
`t0` that are not among the drivers parsed from the formula. -/
def metric_candidates (formula_str : String) (t0_keys : List String) : List String :=
  let nd := parse_formula formula_str
  t0_keys.dedup.filter (fun k => decide (k ∉ nd.1 ++ nd.2))

/-- `log_decompose` of `src/decomposition.py`: parse the formula, infer the
metric name as the unique `t0` key that is not a parsed driver, raise
(`Except.error`) when the number of candidates differs from one, otherwise
decompose with the inferred metric.  Dictionary reads inside the decomposition
are modelled as association-list lookups with default `0` (the source assumes
the driver keys present, per the §4.3 preconditions). -/
noncomputable def log_decompose (formula_str : String) (t0 t1 : List (String × ℝ)) :
    Except DecompError (List DriverRow × OutcomeInfo) :=
  let nd := parse_formula formula_str
  match metric_candidates formula_str (t0.map Prod.fst) with
  | [m] =>
      Except.ok (multiplicative_contribution m (fun k => ((t0.lookup k).getD 0))
        (fun k => ((t1.lookup k).getD 0)) nd.1 nd.2)
  | _ =>
      Except.error (DecompError.couldNotIdentifyMetric
        (metric_candidates formula_str (t0.map Prod.fst)))

/-! ## Parser lemmas and claims C4, C5 -/

/-- `parse_slice` ignores its operator state: it keeps every non-numeric
operand, in order, no matter how many `/` operators intervene. -/
theorem parse_slice_eq_filterMap (ts : List FTok) (op : Char) :
    parse_slice ts op = (operandsOf ts).filterMap keepOperand := by
  induction ts generalizing op with
  | nil => simp [parse_slice, operandsOf]
  | cons t rest ih =>
      cases t with
      | star => simp [parse_slice, operandsOf, ih]
      | slash => simp [parse_slice, operandsOf, ih]
      | operand s =>
          cases hk : keepOperand s with
          | none => simp [parse_slice, operandsOf, hk, ih]
          | some u => simp [parse_slice, operandsOf, hk, ih]

/-- The second components of the tagged walk are exactly the kept operands,
independently of the starting operator context. -/
theorem tagTokens_map_snd (ts : List FTok) (op : Char) :
    (tagTokens ts op).map Prod.snd = (operandsOf ts).filterMap keepOperand := by
  induction ts generalizing op with
  | nil => simp [tagTokens, operandsOf]
  | cons t rest ih =>
      cases t with
      | star => simp [tagTokens, operandsOf, ih]
      | slash => simp [tagTokens, operandsOf, ih]
      | operand s =>
          cases hk : keepOperand s with
          | none => simp [tagTokens, operandsOf, hk, ih]
          | some u => simp [tagTokens, operandsOf, hk, ih]

/-- Every tag produced from a `*`-or-`/` starting context is itself `*` or `/`. -/
theorem tagTokens_fst_mem (ts : List FTok) (op : Char) (hop : op = '*' ∨ op = '/') :
    ∀ x ∈ tagTokens ts op, x.1 = '*' ∨ x.1 = '/' := by
  induction ts generalizing op with
  | nil => simp [tagTokens]
  | cons t rest ih =>
      cases t with
      | star => simpa [tagTokens] using ih '*' (Or.inl rfl)
      | slash => simpa [tagTokens] using ih '/' (Or.inr rfl)
      | operand s =>
          cases hk : keepOperand s with
          | none => simpa [tagTokens, hk] using ih op hop
          | some u =>
              intro x hx
              simp [tagTokens, hk] at hx
              rcases hx with hx | hx
              · subst hx; exact hop
              · exact ih op hop x hx

/-- The classifying walk is the partition of the tagged walk by operator
context: `*`-context operands to numerators, `/`-context ones to denominators. -/
theorem classifyTokens_eq_partition (ts : List FTok) (op : Char) (hop : op = '*' ∨ op = '/') :
    classifyTokens ts op =
      (((tagTokens ts op).filter (fun x => x.1 = '*')).map Prod.snd,
        ((tagTokens ts op).filter (fun x => x.1 = '/')).map Prod.snd) := by
  induction ts generalizing op with
  | nil => simp [classifyTokens, tagTokens]
  | cons t rest ih =>
      cases t with
      | star => simpa [classifyTokens, tagTokens] using ih '*' (Or.inl rfl)
      | slash => simpa [classifyTokens, tagTokens] using ih '/' (Or.inr rfl)
      | operand s =>
          cases hk : keepOperand s with
          | none => simpa [classifyTokens, tagTokens, hk] using ih op hop
          | some u =>
              rcases hop with hop | hop
              · subst hop
                simp [classifyTokens, tagTokens, hk, ih '*' (Or.inl rfl)]
              · subst hop
                simp [classifyTokens, tagTokens, hk, ih '/' (Or.inr rfl)]

/-- C4: when the formula contains a division followed by a parenthesized
group, `parse_formula` returns as numerators every non-numeric token outside
the group -- all tokens before the match regardless of intervening `/`
operators, then all tokens after the closing parenthesis -- in order, and as
denominators every non-numeric token inside the group split on `*` only, in
left-to-right order, with numeric constants dropped from both lists. -/
theorem parse_formula_paren_branch (expr pre grp rest : String)
    (h : findDivParen expr.data [] = some (pre, grp, rest)) :
    parse_formula expr =
      ((operandsOf (tokenize pre.data [])).filterMap keepOperand ++
        (if (trimWs rest.data).isEmpty then []
          else (operandsOf (tokenize rest.data [])).filterMap keepOperand),
        (splitStar grp.data []).filterMap keepOperand) := by
  unfold parse_formula
  rw [h]
  by_cases hr : (trimWs rest.data).isEmpty <;>
    simp [hr, parse_slice_eq_filterMap]

/-- C4 witness: the spec scenario "CPM / (CTR * CVR * 1000)" parses to
numerators `["CPM"]` and denominators `["CTR", "CVR"]`, the constant 1000
dropped. -/
theorem parse_formula_paren_branch_witness :
    findDivParen "CPM / (CTR * CVR * 1000)".data [] =
        some ("CPM ", "CTR * CVR * 1000", "") ∧
      parse_formula "CPM / (CTR * CVR * 1000)" = (["CPM"], ["CTR", "CVR"]) := by
  have h : findDivParen "CPM / (CTR * CVR * 1000)".data [] =
      some ("CPM ", "CTR * CVR * 1000", "") := by decide
  refine ⟨h, ?_⟩
  rw [parse_formula_paren_branch _ _ _ _ h]
  decide

/-- C5: when the formula has no division-followed-by-parenthesized-group
pattern, `parse_formula` splits on `*` and `/` keeping the operators,
starts in `*` context, skips empty tokens, drops numeric constants, and
routes each remaining token by the current operator context; consequently
the numerators and denominators together are, as a set, exactly the
non-numeric tokens of the formula. -/
theorem parse_formula_no_paren (expr : String)
    (h : findDivParen expr.data [] = none) :
    (parse_formula expr).1 =
        ((tagTokens (tokenize expr.data []) '*').filter (fun x => x.1 = '*')).map Prod.snd ∧
      (parse_formula expr).2 =
        ((tagTokens (tokenize expr.data []) '*').filter (fun x => x.1 = '/')).map Prod.snd ∧
      ∀ t : String,
        (t ∈ (parse_formula expr).1 ∨ t ∈ (parse_formula expr).2) ↔
          t ∈ (operandsOf (tokenize expr.data [])).filterMap keepOperand := by
  have hcl := classifyTokens_eq_partition (tokenize expr.data []) '*' (Or.inl rfl)
  have hp : parse_formula expr = classifyTokens (tokenize expr.data []) '*' := by
    unfold parse_formula
    rw [h]
  refine ⟨by rw [hp, hcl], by rw [hp, hcl], ?_⟩
  intro t
  rw [hp, hcl, ← tagTokens_map_snd (tokenize expr.data []) '*']
  constructor
  · rintro (ht | ht) <;>
      · simp only [List.mem_map, List.mem_filter] at ht
        obtain ⟨x, hx, hxt⟩ := ht
        exact List.mem_map.mpr ⟨x, hx.1, hxt⟩
  · intro ht
    obtain ⟨x, hx, hxt⟩ := List.mem_map.mp ht
    rcases tagTokens_fst_mem (tokenize expr.data []) '*' (Or.inl rfl) x hx with hx1 | hx1
    · exact Or.inl (List.mem_map.mpr ⟨x, List.mem_filter.mpr ⟨hx, by simp [hx1]⟩, hxt⟩)
    · exact Or.inr (List.mem_map.mpr ⟨x, List.mem_filter.mpr ⟨hx, by simp [hx1]⟩, hxt⟩)

/-- C5 witness: "Spend / CPA * AOV" has no parenthesized group and parses to
numerators `["Spend", "AOV"]`, denominators `["CPA"]`. -/
theorem parse_formula_no_paren_witness :
    findDivParen "Spend / CPA * AOV".data [] = none ∧
      parse_formula "Spend / CPA * AOV" = (["Spend", "AOV"], ["CPA"]) := by
  have h : findDivParen "Spend / CPA * AOV".data [] = none := by decide
  have c := parse_formula_no_paren "Spend / CPA * AOV" h
  exact ⟨h, Prod.ext (c.1.trans (by decide)) (c.2.1.trans (by decide))⟩

/-! ## Decomposition claims C1, C2, C3 -/

/-- Normalized log shares scaled by any constant sum back to that constant,
as long as the total log is nonzero: the heart of the reconciliation
identity. -/
theorem sum_log_share_mul (numerators denominators : List String) (t0 t1 : String → ℝ)
    (hT : total_log numerators denominators t0 t1 ≠ 0) (c : ℝ) :
    (((numerators ++ denominators).map
        (fun d => log_driver numerators t0 t1 d / total_log numerators denominators t0 t1 * c)).sum)
      = c := by
  have h1 :
      (fun d => log_driver numerators t0 t1 d / total_log numerators denominators t0 t1 * c)
        = fun d => log_driver numerators t0 t1 d * (c / total_log numerators denominators t0 t1) := by
    funext d
    rw [div_mul_eq_mul_div, mul_div_assoc]
  rw [h1, List.sum_map_mul_right]
  show total_log numerators denominators t0 t1 * _ = c
  rw [mul_comm]
  exact div_mul_cancel₀ c hT

/-- C1: under the preconditions (finite positive growth factors and nonzero
total signed log) the driver rows of `multiplicative_contribution` sum back
exactly, in real arithmetic, to the metric's absolute change
`t1[metric] - t0[metric]` and to its percentage-point change
`(t1[metric]/t0[metric] - 1) * 100`. -/
theorem multiplicative_contribution_reconciles (metric_name : String) (t0 t1 : String → ℝ)
    (numerators denominators : List String)
    (hpos : ∀ d ∈ numerators ++ denominators, 0 < t1 d / t0 d)
    (hT : total_log numerators denominators t0 t1 ≠ 0) :
    (((multiplicative_contribution metric_name t0 t1 numerators denominators).1.map
        DriverRow.absolute_contribution).sum = t1 metric_name - t0 metric_name) ∧
      (((multiplicative_contribution metric_name t0 t1 numerators denominators).1.map
        DriverRow.percentage_points_contribution).sum
          = (t1 metric_name / t0 metric_name - 1) * 100) := by
  have key := sum_log_share_mul numerators denominators t0 t1 hT
  constructor
  · simpa [multiplicative_contribution, List.map_map, Function.comp] using
      key (t1 metric_name - t0 metric_name)
  · simpa [multiplicative_contribution, List.map_map, Function.comp] using
      key ((t1 metric_name / t0 metric_name - 1) * 100)

/-- C1 witness: a single numerator driver doubling (growth factor 2, so
total log is `log 2 ≠ 0`) while the metric goes from 1 to 2. -/
theorem multiplicative_contribution_reconciles_witness :
    (((multiplicative_contribution "M" (fun _ => (1 : ℝ)) (fun _ => (2 : ℝ)) ["A"] []).1.map
        DriverRow.absolute_contribution).sum = (2 : ℝ) - 1) ∧
      (((multiplicative_contribution "M" (fun _ => (1 : ℝ)) (fun _ => (2 : ℝ)) ["A"] []).1.map
        DriverRow.percentage_points_contribution).sum = ((2 : ℝ) / 1 - 1) * 100) := by
  have hpos : ∀ d ∈ ["A"] ++ ([] : List String),
      0 < (fun _ => (2 : ℝ)) d / (fun _ => (1 : ℝ)) d := by
    intro d _
    norm_num
  have hT : total_log ["A"] [] (fun _ => (1 : ℝ)) (fun _ => (2 : ℝ)) ≠ 0 := by
    have h2 : Real.log 2 ≠ 0 := (Real.log_pos (by norm_num)).ne'
    simpa [total_log, log_driver, growth_factor] using h2
  exact multiplicative_contribution_reconciles "M" (fun _ => 1) (fun _ => 2) ["A"] [] hpos hT

/-- C2 evidence: with numerator A and denominator B both doubling, the signed
logs cancel exactly (`total_log = 0`), yet `multiplicative_contribution` does
not fail: it has no error channel at all and still returns both driver rows,
whose `log_share` is the unguarded division `log_driver / 0` (`NaN` under the
floating-point semantics of the source, `0` in the real-number model). -/
theorem degenerate_total_not_surfaced :
    total_log ["A"] ["B"] (fun _ => (1 : ℝ)) (fun _ => (2 : ℝ)) = 0 ∧
      (multiplicative_contribution "M" (fun _ => (1 : ℝ)) (fun _ => (2 : ℝ)) ["A"] ["B"]).1.length = 2 ∧
      ((multiplicative_contribution "M" (fun _ => (1 : ℝ)) (fun _ => (2 : ℝ)) ["A"] ["B"]).1.map
        DriverRow.log_share) = [Real.log 2 / 0, -Real.log 2 / 0] := by
  have h0 : total_log ["A"] ["B"] (fun _ => (1 : ℝ)) (fun _ => (2 : ℝ)) = 0 := by
    simp [total_log, log_driver, growth_factor]
  refine ⟨h0, ?_, ?_⟩
  · simp [multiplicative_contribution]
  · simp [multiplicative_contribution, h0, log_driver, growth_factor]

/-- C3 evidence: with `t0[A] = 1`, `t1[A] = -1` the growth factor is `-1`,
yet `multiplicative_contribution` takes the logarithm of it anyway and still
returns the row: no `InvalidGrowth` error is surfaced before the logarithm
(the source lets `np.log(-1) = NaN` flow silently into every downstream sum). -/
theorem invalid_growth_not_surfaced :
    growth_factor (fun _ => (1 : ℝ)) (fun _ => (-1 : ℝ)) "A" = -1 ∧
      ((multiplicative_contribution "M" (fun _ => (1 : ℝ)) (fun _ => (-1 : ℝ)) ["A"] []).1.map
        DriverRow.growth_factor) = [-1] ∧
      (multiplicative_contribution "M" (fun _ => (1 : ℝ)) (fun _ => (-1 : ℝ)) ["A"] []).1.length = 1 := by
  refine ⟨by simp [growth_factor], ?_, ?_⟩
  · simp [multiplicative_contribution, growth_factor]
  · simp [multiplicative_contribution]

/-! ## Evaluator lemmas and claims C6, C7 -/

/-- First listed driver absent from the values mapping, if any: the driver
whose name the first failing lookup of the evaluation loops reports. -/
def first_missing (ns : List String) (values : List (String × ℚ)) : Option String :=
  match ns with
  | [] => none
  | n :: rest =>
      match values.lookup n with
      | none => some n
      | some _ => first_missing rest values

/-- When every listed driver is present the product loop returns the
accumulator times the product of the listed values. -/
theorem product_loop_ok_of_all_present (ns : List String) (values : List (String × ℚ))
    (h : ∀ d ∈ ns, (values.lookup d).isSome) (acc : ℚ) :
    product_loop ns values acc =
      Except.ok (acc * (ns.map (fun d => (values.lookup d).getD 0)).prod) := by
  induction ns generalizing acc with
  | nil => simp [product_loop]
  | cons n rest ih =>
      obtain ⟨v, hv⟩ := Option.isSome_iff_exists.mp (h n (by simp))
      have hrest : ∀ d ∈ rest, (values.lookup d).isSome := fun d hd => h d (by simp [hd])
      simp [product_loop, hv, ih hrest, mul_assoc]

/-- The product loop raises `missingDriver` naming exactly the first listed
driver absent from the values mapping, whatever the accumulator. -/
theorem product_loop_error_of_first_missing (ns : List String) (values : List (String × ℚ))
    (d : String) (h : first_missing ns values = some d) :
    ∀ acc, product_loop ns values acc = Except.error (EvalError.missingDriver d) := by
  induction ns with
  | nil => simp [first_missing] at h
  | cons n rest ih =>
      intro acc
      cases hv : values.lookup n with
      | none =>
          rw [first_missing] at h
          simp only [hv, Option.some.injEq] at h
          subst h
          simp [product_loop, hv]
      | some v =>
          rw [first_missing] at h
          simp only [hv] at h
          simp [product_loop, hv, ih h]

/-- No listed driver is missing iff every lookup succeeds. -/
theorem first_missing_eq_none_iff (ns : List String) (values : List (String × ℚ)) :
    first_missing ns values = none ↔ ∀ d ∈ ns, (values.lookup d).isSome := by
  induction ns with
  | nil => simp [first_missing]
  | cons n rest ih =>
      cases hv : values.lookup n with
      | none =>
          rw [first_missing]
          simp only [hv]
          constructor
          · intro h
            exact absurd h (by simp)
          · intro h
            have hn := h n (by simp)
            rw [hv] at hn
            exact absurd hn (by simp)
      | some v =>
          rw [first_missing]
          simp only [hv]
          rw [ih]
          constructor
          · intro h d hd
            rcases List.mem_cons.mp hd with rfl | hd
            · rw [hv]
              rfl
            · exact h d hd
          · intro h d hd
            exact h d (List.mem_cons_of_mem _ hd)

/-- The reported driver is listed and its lookup really fails. -/
theorem first_missing_mem (ns : List String) (values : List (String × ℚ)) (d : String)
    (h : first_missing ns values = some d) : d ∈ ns ∧ values.lookup d = none := by
  induction ns with
  | nil => simp [first_missing] at h
  | cons n rest ih =>
      cases hv : values.lookup n with
      | none =>
          rw [first_missing] at h
          simp [hv] at h
          subst h
          exact ⟨by simp, hv⟩
      | some v =>
          rw [first_missing] at h
          simp [hv] at h
          obtain ⟨hmem, hnone⟩ := ih h
          exact ⟨by simp [hmem], hnone⟩

/-- The first missing driver of a concatenation is the first missing of the
left part, else of the right part -- the order the evaluator checks. -/
theorem first_missing_append (xs ys : List String) (values : List (String × ℚ)) :
    first_missing (xs ++ ys) values =
      match first_missing xs values with
      | some d => some d
      | none => first_missing ys values := by
  induction xs with
  | nil => simp [first_missing]
  | cons x rest ih =>
      cases hv : values.lookup x with
      | none => simp [first_missing, hv]
      | some v => simp [first_missing, hv, ih]

/-- With an empty `formulas_dict` (Python `None`), `evaluate_formula` is the
parse-then-products pipeline on the formula itself. -/
theorem evaluate_formula_nil_dict (formula : String) (values : List (String × ℚ)) :
    evaluate_formula formula values [] =
      match product_loop (parse_formula formula).1 values 1 with
      | Except.error e => Except.error e
      | Except.ok np =>
          match product_loop (parse_formula formula).2 values 1 with
          | Except.error e => Except.error e
          | Except.ok dp =>
              if dp = 0 then Except.error EvalError.divisionByZero
              else Except.ok (np / dp) := by
  simp [evaluate_formula]

/-- C6: `evaluate_formula` fails with `missingDriver`, naming an absent
listed driver (the first one, in numerators-then-denominators order),
whenever any listed numerator or denominator is absent from the values
mapping; and it fails with `divisionByZero` -- a distinct error -- exactly
when all listed drivers are present and the denominator product is zero. -/
theorem evaluate_formula_error_cases (formula : String) (values : List (String × ℚ)) :
    (∀ d, first_missing ((parse_formula formula).1 ++ (parse_formula formula).2) values = some d →
        d ∈ (parse_formula formula).1 ++ (parse_formula formula).2 ∧
          values.lookup d = none ∧
          evaluate_formula formula values [] = Except.error (EvalError.missingDriver d)) ∧
      (first_missing ((parse_formula formula).1 ++ (parse_formula formula).2) values = none ↔
        ∀ d ∈ (parse_formula formula).1 ++ (parse_formula formula).2, (values.lookup d).isSome) ∧
      (evaluate_formula formula values [] = Except.error EvalError.divisionByZero ↔
        (∀ d ∈ (parse_formula formula).1 ++ (parse_formula formula).2, (values.lookup d).isSome) ∧
          ((parse_formula formula).2.map (fun d => (values.lookup d).getD 0)).prod = 0) := by
  refine ⟨?_, first_missing_eq_none_iff _ _, ?_⟩
  · intro d h
    have hmem := first_missing_mem _ _ _ h
    refine ⟨hmem.1, hmem.2, ?_⟩
    rw [evaluate_formula_nil_dict]
    rw [first_missing_append] at h
    cases hns : first_missing (parse_formula formula).1 values with
    | some d0 =>
        rw [hns] at h
        simp only [Option.some.injEq] at h
        subst h
        rw [product_loop_error_of_first_missing _ _ _ hns 1]
    | none =>
        rw [hns] at h
        have hall := (first_missing_eq_none_iff _ _).mp hns
        rw [product_loop_ok_of_all_present _ _ hall 1]
        rw [product_loop_error_of_first_missing _ _ _ h 1]
  · rw [evaluate_formula_nil_dict]
    cases hfm : first_missing ((parse_formula formula).1 ++ (parse_formula formula).2) values with
    | some d =>
        rw [first_missing_append] at hfm
        have hnotall : ¬∀ d ∈ (parse_formula formula).1 ++ (parse_formula formula).2,
            (values.lookup d).isSome := by
          intro hall
          have : first_missing ((parse_formula formula).1 ++ (parse_formula formula).2) values
              = none := (first_missing_eq_none_iff _ _).mpr hall
          rw [first_missing_append] at this
          cases hns : first_missing (parse_formula formula).1 values with
          | some d0 => rw [hns] at this; simp at this
          | none =>
              rw [hns] at this
              rw [hns] at hfm
              rw [this] at hfm
              simp at hfm
        cases hns : first_missing (parse_formula formula).1 values with
        | some d0 =>
            rw [product_loop_error_of_first_missing _ _ _ hns 1]
            exact ⟨fun h => absurd h (by simp), fun h => absurd h.1 hnotall⟩
        | none =>
            rw [hns] at hfm
            have hall := (first_missing_eq_none_iff _ _).mp hns
            rw [product_loop_ok_of_all_present _ _ hall 1]
            rw [product_loop_error_of_first_missing _ _ _ hfm 1]
            exact ⟨fun h => absurd h (by simp), fun h => absurd h.1 hnotall⟩
    | none =>
        have hall := (first_missing_eq_none_iff _ _).mp hfm
        have hall1 : ∀ d ∈ (parse_formula formula).1, (values.lookup d).isSome :=
          fun d hd => hall d (by simp [hd])
        have hall2 : ∀ d ∈ (parse_formula formula).2, (values.lookup d).isSome :=
          fun d hd => hall d (by simp [hd])
        rw [product_loop_ok_of_all_present _ _ hall1 1,
          product_loop_ok_of_all_present _ _ hall2 1]
        rw [one_mul, one_mul]
        by_cases hz : ((parse_formula formula).2.map (fun d => (values.lookup d).getD 0)).prod = 0
        · exact ⟨fun _ => ⟨hall, hz⟩, fun _ => if_pos hz⟩
        · exact ⟨fun h => absurd ((if_neg hz).symm.trans h) (by simp), fun h => absurd h.2 hz⟩

/-- C6 witness: for "Spend / CPA * AOV", a values mapping without `AOV`
yields `missingDriver "AOV"`, and one with `CPA = 0` (all drivers present)
yields the distinct `divisionByZero`. -/
theorem evaluate_formula_error_cases_witness :
    evaluate_formula "Spend / CPA * AOV" [("Spend", (50000 : ℚ)), ("CPA", 50)] [] =
        Except.error (EvalError.missingDriver "AOV") ∧
      evaluate_formula "Spend / CPA * AOV" [("Spend", (50000 : ℚ)), ("CPA", 0), ("AOV", 100)] [] =
        Except.error EvalError.divisionByZero := by
  constructor
  · exact ((evaluate_formula_error_cases "Spend / CPA * AOV"
      [("Spend", (50000 : ℚ)), ("CPA", 50)]).1 "AOV" (by decide)).2.2
  · refine (evaluate_formula_error_cases "Spend / CPA * AOV"
      [("Spend", (50000 : ℚ)), ("CPA", 0), ("AOV", 100)]).2.2.mpr ⟨by decide, ?_⟩
    have h3 : List.lookup "CPA" [("Spend", (50000 : ℚ)), ("CPA", 0), ("AOV", 100)] = some 0 := rfl
    have hd : (parse_formula "Spend / CPA * AOV").2 = ["CPA"] := by decide
    rw [hd, List.map_cons, List.map_nil, h3]
    simp

/-- C7: the explicit-list evaluator (modelled from the spec, see `evaluate`)
returns the numerator-values product divided by the denominator-values
product, times the multiplier, whenever all listed drivers are present and
the denominator product is nonzero; the empty product is 1 and the default
multiplier (`evaluate_with_default_multiplier`) is 1; the in-source
`evaluate_formula` agrees with the multiplier-1 instance on parsed formulas. -/
theorem evaluate_ok (values : List (String × ℚ)) (numerators denominators : List String)
    (multiplier : ℚ)
    (hpresent : ∀ d ∈ numerators ++ denominators, (values.lookup d).isSome)
    (hden : (denominators.map (fun d => (values.lookup d).getD 0)).prod ≠ 0) :
    evaluate values numerators denominators multiplier =
        Except.ok ((numerators.map (fun n => (values.lookup n).getD 0)).prod /
          (denominators.map (fun d => (values.lookup d).getD 0)).prod * multiplier) ∧
      evaluate_with_default_multiplier values numerators denominators =
        evaluate values numerators denominators 1 ∧
      ∀ formula : String, parse_formula formula = (numerators, denominators) →
        evaluate_formula formula values [] =
          evaluate values numerators denominators 1 := by
  have hn : ∀ d ∈ numerators, (values.lookup d).isSome :=
    fun d hd => hpresent d (by simp [hd])
  have hd : ∀ d ∈ denominators, (values.lookup d).isSome :=
    fun d hd => hpresent d (by simp [hd])
  have heval : evaluate values numerators denominators multiplier =
      Except.ok ((numerators.map (fun n => (values.lookup n).getD 0)).prod /
        (denominators.map (fun d => (values.lookup d).getD 0)).prod * multiplier) := by
    unfold evaluate
    rw [product_loop_ok_of_all_present _ _ hn 1, product_loop_ok_of_all_present _ _ hd 1]
    simp [hden]
  refine ⟨heval, rfl, ?_⟩
  intro formula hf
  rw [evaluate_formula_nil_dict, hf]
  unfold evaluate
  rw [product_loop_ok_of_all_present _ _ hn 1, product_loop_ok_of_all_present _ _ hd 1]
  simp [hden]

/-- C7 witness: the spec scenario Spend/CPA*AOV at t0 with multiplier 1
evaluates to 50000 / 50 * 100 = 100000. -/
theorem evaluate_ok_witness :
    evaluate [("Spend", (50000 : ℚ)), ("CPA", 50), ("AOV", 100)] ["Spend", "AOV"] ["CPA"] 1 =
      Except.ok (100000 : ℚ) := by
  have h1 : List.lookup "Spend" [("Spend", (50000 : ℚ)), ("CPA", 50), ("AOV", 100)]
      = some 50000 := rfl
  have h2 : List.lookup "AOV" [("Spend", (50000 : ℚ)), ("CPA", 50), ("AOV", 100)]
      = some 100 := rfl
  have h3 : List.lookup "CPA" [("Spend", (50000 : ℚ)), ("CPA", 50), ("AOV", 100)]
      = some 50 := rfl
  have hden : (List.map (fun d => (List.lookup d
      [("Spend", (50000 : ℚ)), ("CPA", 50), ("AOV", 100)]).getD 0) ["CPA"]).prod ≠ 0 := by
    rw [List.map_cons, List.map_nil, h3]
    simp
  have h := (evaluate_ok [("Spend", (50000 : ℚ)), ("CPA", 50), ("AOV", 100)]
    ["Spend", "AOV"] ["CPA"] 1 (by decide) hden).1
  rw [h, List.map_cons, List.map_cons, List.map_nil, List.map_cons, List.map_nil, h1, h2, h3]
  norm_num

/-! ## Validator claims C8, C9 -/

/-- C8: `validate_decomposition` returns `ok = true` with an empty message
exactly when both reconciliation differences are under tolerance -- the
absolute one under `max(|absolute_change| * 0.001, 0.01)` (unless an explicit
tolerance is supplied) and the ppt one under the fixed `0.01` -- and
otherwise returns `ok = false` with the message carrying both differences.
Being a total Lean function of its arguments, it never raises and has no
side effects. -/
theorem validate_decomposition_characterization {α : Type} (df : α) (o : OutcomeInfo)
    (tolOpt : Option ℝ) :
    (validate_decomposition df o tolOpt = (true, "") ↔
        |o.sum_absolute_contributions - o.absolute_change| <
            tolOpt.getD (max (|o.absolute_change| * 0.001) 0.01) ∧
          |o.sum_ppt_contributions - o.percentage_points_change| < 0.01) ∧
      (validate_decomposition df o tolOpt =
          (false, mismatch_message o.metric_name
            (|o.sum_absolute_contributions - o.absolute_change|)
            (|o.sum_ppt_contributions - o.percentage_points_change|)) ↔
        ¬(|o.sum_absolute_contributions - o.absolute_change| <
            tolOpt.getD (max (|o.absolute_change| * 0.001) 0.01) ∧
          |o.sum_ppt_contributions - o.percentage_points_change| < 0.01)) := by
  by_cases hc : |o.sum_absolute_contributions - o.absolute_change| <
      tolOpt.getD (max (|o.absolute_change| * 0.001) 0.01) ∧
    |o.sum_ppt_contributions - o.percentage_points_change| < 0.01
  · constructor
    · simp [validate_decomposition, hc]
    · simp [validate_decomposition, hc]
  · constructor
    · simp [validate_decomposition, hc]
    · simp [validate_decomposition, hc]

/-- C8 witness: the spec scenario outcome (absolute change -60000, ppt change
-60, sums matching exactly) validates with the default tolerance. -/
theorem validate_decomposition_characterization_witness :
    validate_decomposition (0 : ℕ)
        { metric_name := "Sales", time0_value := 100000, time1_value := 40000,
          absolute_change := -60000, percentage_points_change := -60,
          sum_absolute_contributions := -60000, sum_ppt_contributions := -60 }
        none = (true, "") := by
  refine (validate_decomposition_characterization (0 : ℕ) _ none).1.mpr ?_
  norm_num

/-- C9: the result of `validate_decomposition` depends only on the outcome
info and the tolerance, never on the driver rows: two calls with identical
`outcome_info` and tolerance but arbitrary (even differently typed)
`drivers_df` arguments return the identical pair. -/
theorem validate_decomposition_ignores_drivers {α β : Type} (df1 : α) (df2 : β)
    (o : OutcomeInfo) (tolOpt : Option ℝ) :
    validate_decomposition df1 o tolOpt = validate_decomposition df2 o tolOpt := rfl

/-! ## String-formula entry point claim C10 -/

/-- C10: `log_decompose` infers the metric as the unique `t0` key outside the
parsed drivers and decomposes with it; whenever the number of such candidate
keys differs from one it raises (`Except.error`) without producing a result. -/
theorem log_decompose_metric_inference (formula_str : String) (t0 t1 : List (String × ℝ)) :
    ((metric_candidates formula_str (t0.map Prod.fst)).length ≠ 1 →
        log_decompose formula_str t0 t1 =
          Except.error (DecompError.couldNotIdentifyMetric
            (metric_candidates formula_str (t0.map Prod.fst)))) ∧
      ∀ m, metric_candidates formula_str (t0.map Prod.fst) = [m] →
        log_decompose formula_str t0 t1 =
          Except.ok (multiplicative_contribution m (fun k => ((t0.lookup k).getD 0))
            (fun k => ((t1.lookup k).getD 0))
            (parse_formula formula_str).1 (parse_formula formula_str).2) := by
  unfold log_decompose
  rcases hc : metric_candidates formula_str (t0.map Prod.fst) with _ | ⟨m0, _ | ⟨m1, ms⟩⟩
  · exact ⟨fun _ => rfl, fun m hm => by simp at hm⟩
  · constructor
    · intro h
      exact absurd rfl h
    · intro m hm
      simp only [List.cons.injEq, and_true] at hm
      subst hm
      rfl
  · exact ⟨fun _ => rfl, fun m hm => by simp at hm⟩

/-- C10 witness: formula "A * B" with `t0` keys {A, B, M, N} leaves two
metric candidates, so `log_decompose` raises instead of decomposing. -/
theorem log_decompose_metric_inference_witness :
    log_decompose "A * B" [("A", (1 : ℝ)), ("B", 1), ("M", 1), ("N", 1)]
        [("A", (2 : ℝ)), ("B", 2), ("M", 2), ("N", 2)] =
      Except.error (DecompError.couldNotIdentifyMetric ["M", "N"]) := by
  have h1 : metric_candidates "A * B"
      ([("A", (1 : ℝ)), ("B", 1), ("M", 1), ("N", 1)].map Prod.fst) = ["M", "N"] := by
    show metric_candidates "A * B" ["A", "B", "M", "N"] = ["M", "N"]
    decide
  have h := (log_decompose_metric_inference "A * B"
    [("A", (1 : ℝ)), ("B", 1), ("M", 1), ("N", 1)]
    [("A", (2 : ℝ)), ("B", 2), ("M", 2), ("N", 2)]).1 (by rw [h1]; decide)
  rw [h, h1]
